import Mathlib

/-
Verification of the Multilingual-Chatbot repository (src/Chatbot.py).

The program is a Streamlit chat application: a process-global dictionary
`store` maps session identifiers to in-memory chat histories, a langchain
trimmer reduces the history to a token budget, and the presentation script
re-runs on every UI event (language selection, "Start New Chat" button,
chat input).  We embed the data model and every state-changing operation of
the script as pure Lean functions, with the UI re-run loop as a step
function over an explicit application state.

Session identifiers are produced by uuid4 in the source; we model the
generator as a counter that never repeats, which captures exactly the
freshness property the program relies on.
-/

namespace Chatbot

/-- Role of a chat message: system instruction, user turn or assistant turn. -/
inductive Role where
  | system
  | user
  | assistant
deriving DecidableEq, Repr

/-- A chat message: a role plus its text content.  Used both for the
model-facing store entries and for the UI-facing display list
(`st.session_state["messages"]` stores role/content dictionaries). -/
structure Message where
  role : Role
  content : String
deriving DecidableEq, Repr

/-- The process-global `store`: a mapping from session identifier to the
session message sequence, absent keys modelled as `none`. -/
abbrev Store := Nat → Option (List Message)

/-- Embedding of `get_session_history` (src/Chatbot.py lines 31-35): if the
identifier is absent a fresh empty history is created under that key; the
result is the history list together with the possibly-updated store. -/
def get_session_history (store : Store) (sid : Nat) : List Message × Store :=
  match store sid with
  | some h => (h, store)
  | none => ([], fun s => if s = sid then some [] else store s)

/-- Embedding of `get_session_history(sid).clear()` as used at
src/Chatbot.py lines 119, 127 and 153: the entry is created if absent and
then emptied in place, leaving the key present. -/
def clearHistoryAt (store : Store) (sid : Nat) : Store :=
  let store1 := (get_session_history store sid).2
  fun s => if s = sid then some [] else store1 s

/-- Modelled from the spec: the Session Store `append(id, Message)`
operation of spec section 4.1 (the underlying ChatMessageHistory class is
library code not present in src/): the entry is created if absent and the
message is appended at the end. -/
def sessionAppend (store : Store) (sid : Nat) (m : Message) : Store :=
  let h := (get_session_history store sid).1
  let store1 := (get_session_history store sid).2
  fun s => if s = sid then some (h ++ [m]) else store1 s

/-- The rendered system instruction of the prompt template
(src/Chatbot.py lines 45-53) with the language parameter substituted. -/
def systemInstruction (lang : String) : String :=
  "You are a helpful assistant. Answer all questions to the best of your ability in "
    ++ lang
    ++ ". Your name is GemmaBot. The user\x27s input might be in English, but you MUST respond in the selected "
    ++ lang ++ "."

/-- The request assembled at invocation time by the prompt template: the
system instruction synthesized from the current language selection,
followed by the (trimmed) conversation messages.  The system message is
built fresh on every call and is never read from the store. -/
def buildRequest (lang : String) (msgs : List Message) : List Message :=
  Message.mk Role.system (systemInstruction lang) :: msgs

/-- Total token estimate of a message list under a given counter. -/
def tokens (count : Message → Nat) (l : List Message) : Nat :=
  (l.map count).sum

/-- Longest suffix of the input that starts on a user-role message and,
together with the system instruction, fits the token budget; `none` when no
user-starting suffix fits. -/
def fitUserSuffix (count : Message → Nat) (sysTokens budget : Nat) :
    List Message → Option (List Message)
  | [] => none
  | m :: rest =>
    if m.role = Role.user ∧ sysTokens + tokens count (m :: rest) ≤ budget then
      some (m :: rest)
    else
      fitUserSuffix count sysTokens budget rest

/-- The suffix of the input starting at its most recent user-role message
(the minimal retained exchange); `none` when no user message exists. -/
def lastUserSuffix : List Message → Option (List Message)
  | [] => none
  | m :: rest =>
    match lastUserSuffix rest with
    | some s => some s
    | none => if m.role = Role.user then some (m :: rest) else none

/-- Modelled from the spec: the History Trimmer of spec section 4.2 (the
`trim_messages` utility configured at src/Chatbot.py lines 55-62 with
strategy "last", start_on "human", allow_partial False is library code not
present in src/).  The output is the longest suffix starting on a
user-role message that fits the budget; if even the minimal exchange
around the most recent user message exceeds the budget, that minimal
suffix is still returned whole (no partial truncation). -/
def trim_messages (count : Message → Nat) (sysTokens budget : Nat)
    (msgs : List Message) : List Message :=
  match fitUserSuffix count sysTokens budget msgs with
  | some s => s
  | none => (lastUserSuffix msgs).getD []

/-- Welcome message text seeded by `init_chat_session`
(src/Chatbot.py lines 91-94). -/
def welcomeText (lang : String) : String :=
  "Hello! I\x27m GemmaBot. I will respond in **" ++ lang ++ "**. Ask me anything!"

/-- Canned reply of the "forget everything" command handler
(src/Chatbot.py lines 155-156). -/
def wipeText : String :=
  "My memory has been completely wiped for this session. What\x27s your name again?"

/-- Error shown when input is submitted while the chain is unavailable
(src/Chatbot.py line 143). -/
def notFunctionalText : String :=
  "Chatbot is not functional. Please check your GROQ_API_KEY."

/-- Startup error for a missing credential (src/Chatbot.py line 20). -/
def keyMissingText : String :=
  "GROQ_API_KEY not found. Please set it in your .env file or Streamlit secrets."

/-- Placeholder text shown when the model invocation raises
(src/Chatbot.py line 190). -/
def invocationErrorText : String :=
  "An error occurred. Please try again or check the API key."

/-- Embedding of the startup credential check (src/Chatbot.py lines 16-26):
a missing or empty GROQ_API_KEY leaves the model unavailable and surfaces a
visible error; execution continues either way.  Returns (model available,
startup error shown). -/
def startup (key : Option String) : Bool × Option String :=
  match key with
  | none => (false, some keyMissingText)
  | some s => if s.isEmpty then (false, some keyMissingText) else (true, none)

/-- The mutable application state of one process: the global store, the
session-state fields of the script (current session identifier, language
selection, display message list), the fresh-identifier source and the list
of identifiers issued so far, plus a counter of model invocations. -/
structure AppState where
  store : Store
  sessionId : Nat
  language : String
  messages : List Message
  nextId : Nat
  issued : List Nat
  modelCalls : Nat

/-- Embedding of `init_chat_session` (src/Chatbot.py lines 84-94): a fresh
session identifier is allocated (uuid4 modelled as a never-repeating
counter) and the display list is reset to the single welcome message for
the current language.  The store is not touched. -/
def init_chat_session (st : AppState) : AppState :=
  { st with
      sessionId := st.nextId
      nextId := st.nextId + 1
      issued := st.issued ++ [st.nextId]
      messages := [Message.mk Role.assistant (welcomeText st.language)] }

/-- Embedding of the first-load initialization (src/Chatbot.py lines 96-98):
empty store, default language English, then `init_chat_session`. -/
def initialState : AppState :=
  init_chat_session
    { store := fun _ => none
      sessionId := 0
      language := "English"
      messages := []
      nextId := 0
      issued := []
      modelCalls := 0 }

/-- Embedding of the sidebar language handler (src/Chatbot.py lines
107-123): the selection is stored; if it differs from the previous one the
old session history is cleared and a new session is initialized, otherwise
nothing changes. -/
def selectLanguage (st : AppState) (newLang : String) : AppState :=
  if newLang = st.language then st
  else
    init_chat_session
      { st with
          language := newLang
          store := clearHistoryAt st.store st.sessionId }

/-- Embedding of the "Start New Chat" button (src/Chatbot.py lines
125-129): clear the current history and re-initialize the session. -/
def startNewChat (st : AppState) : AppState :=
  init_chat_session { st with store := clearHistoryAt st.store st.sessionId }

/-- Whitespace stripped from both ends, as by str.strip(). -/
def stripChars (l : List Char) : List Char :=
  ((l.dropWhile Char.isWhitespace).reverse.dropWhile Char.isWhitespace).reverse

/-- Detection of the reserved reset phrase (src/Chatbot.py line 152):
`prompt.lower().strip() == "forget everything"`, embedded over the
character sequence (lowercase every character, strip surrounding
whitespace, compare with the phrase). -/
def isForgetCommand (p : String) : Bool :=
  stripChars (p.data.map Char.toLower) == "forget everything".data

/-- Outcome of one model invocation, as observed by the script: either the
fully streamed response text, or an exception after a partially streamed
prefix (possibly empty). -/
inductive ModelResult where
  | ok (response : String)
  | err (errText : String)
deriving Repr

/-- Embedding of the chat-input turn (src/Chatbot.py lines 140-196).
Returns the updated state together with the transient error text shown by
the turn (if any).  With the chain unavailable the guard shows the
"not functional" error and stops before any state change.  Otherwise the
user message is appended to the display list; the "forget everything"
command clears the current history and appends the canned wipe reply; a
normal turn invokes the model and, as configured through
RunnableWithMessageHistory (src/Chatbot.py lines 72-77, library code
modelled from the spec), appends the user message of the turn and the
assistant response, in that order, to the current session entry.  The
response is echoed to the display list when non-empty; on an invocation
error the store is left unchanged and the partial text (if non-empty)
reaches only the display list. -/
def chatInputFull (avail : Bool) (result : ModelResult) (st : AppState)
    (p : String) : AppState × Option String :=
  if avail = false then
    (st, some notFunctionalText)
  else
    let st1 := { st with messages := st.messages ++ [Message.mk Role.user p] }
    if isForgetCommand p then
      ({ st1 with
          store := clearHistoryAt st1.store st1.sessionId
          messages := st1.messages ++ [Message.mk Role.assistant wipeText] },
        none)
    else
      let hist := (get_session_history st1.store st1.sessionId).1
      let store1 := (get_session_history st1.store st1.sessionId).2
      match result with
      | ModelResult.ok response =>
        ({ st1 with
            store := fun s =>
              if s = st1.sessionId then
                some (hist ++ [Message.mk Role.user p,
                               Message.mk Role.assistant response])
              else store1 s
            modelCalls := st1.modelCalls + 1
            messages :=
              if response.isEmpty then st1.messages
              else st1.messages ++ [Message.mk Role.assistant response] },
          none)
      | ModelResult.err e =>
        ({ st1 with
            store := store1
            modelCalls := st1.modelCalls + 1
            messages :=
              if e.isEmpty then st1.messages
              else st1.messages ++ [Message.mk Role.assistant e] },
          some invocationErrorText)

/-- One external UI event driving a re-run of the script. -/
inductive Event where
  | selectLang (lang : String)
  | newChatClick
  | submit (result : ModelResult) (p : String)
deriving Repr

/-- One re-run of the presentation loop on an event. -/
def step (avail : Bool) (st : AppState) : Event → AppState
  | Event.selectLang lang => selectLanguage st lang
  | Event.newChatClick => startNewChat st
  | Event.submit result p => (chatInputFull avail result st p).1

/-- A sequence of re-runs. -/
def run (avail : Bool) (st : AppState) (evs : List Event) : AppState :=
  evs.foldl (step avail) st

/-- Count of assistant-role wipe-confirmation messages in a display list. -/
def wipeConfirmCount (l : List Message) : Nat :=
  l.countP (fun m => m.role == Role.assistant && m.content == wipeText)

/-! Helper lemmas about the store operations. -/

theorem get_session_history_fst (store : Store) (sid : Nat) :
    (get_session_history store sid).1 = (store sid).getD [] := by
  unfold get_session_history
  cases h : store sid <;> simp [h]

theorem get_session_history_snd_other (store : Store) (sid s : Nat) (h : ¬ s = sid) :
    (get_session_history store sid).2 s = store s := by
  unfold get_session_history
  cases hs : store sid <;> simp [hs, h]

theorem clearHistoryAt_same (store : Store) (sid : Nat) :
    clearHistoryAt store sid sid = some [] := by
  simp [clearHistoryAt]

theorem clearHistoryAt_other (store : Store) (sid s : Nat) (h : ¬ s = sid) :
    clearHistoryAt store sid s = store s := by
  simp only [clearHistoryAt, if_neg h]
  exact get_session_history_snd_other store sid s h

/-! Helper lemmas about the trimmer. -/

theorem fitUserSuffix_spec (count : Message → Nat) (sysTokens budget : Nat) :
    ∀ (l t : List Message), fitUserSuffix count sysTokens budget l = some t →
      List.IsSuffix t l ∧ ∃ u t2, t = u :: t2 ∧ u.role = Role.user
  | [], t, h => by simp [fitUserSuffix] at h
  | m :: rest, t, h => by
    by_cases hc : m.role = Role.user ∧ sysTokens + tokens count (m :: rest) ≤ budget
    · rw [fitUserSuffix, if_pos hc] at h
      injection h with h
      subst h
      exact ⟨List.suffix_refl _, m, rest, rfl, hc.1⟩
    · rw [fitUserSuffix, if_neg hc] at h
      obtain ⟨hs, hu⟩ := fitUserSuffix_spec count sysTokens budget rest t h
      exact ⟨hs.trans (List.suffix_cons m rest), hu⟩

theorem lastUserSuffix_spec :
    ∀ (l t : List Message), lastUserSuffix l = some t →
      List.IsSuffix t l ∧ ∃ u t2, t = u :: t2 ∧ u.role = Role.user
  | [], t, h => by simp [lastUserSuffix] at h
  | m :: rest, t, h => by
    rw [lastUserSuffix] at h
    cases hr : lastUserSuffix rest with
    | some s =>
      rw [hr] at h
      injection h with h
      subst h
      obtain ⟨hs, hu⟩ := lastUserSuffix_spec rest s hr
      exact ⟨hs.trans (List.suffix_cons m rest), hu⟩
    | none =>
      rw [hr] at h
      by_cases hm : m.role = Role.user
      · rw [if_pos hm] at h
        injection h with h
        subst h
        exact ⟨List.suffix_refl _, m, rest, rfl, hm⟩
      · rw [if_neg hm] at h
        exact absurd h (by simp)

theorem lastUserSuffix_none :
    ∀ (l : List Message), lastUserSuffix l = none → ∀ m ∈ l, ¬ m.role = Role.user
  | [], _, m, hm => by simp at hm
  | a :: rest, h, m, hm => by
    rw [lastUserSuffix] at h
    cases hr : lastUserSuffix rest with
    | some s => rw [hr] at h; exact absurd h (by simp)
    | none =>
      rw [hr] at h
      by_cases ha : a.role = Role.user
      · rw [if_pos ha] at h; exact absurd h (by simp)
      · rw [if_neg ha] at h
        rcases List.mem_cons.mp hm with rfl | hmr
        · exact ha
        · exact lastUserSuffix_none rest hr m hmr

theorem trim_messages_suffix (count : Message → Nat) (sysTokens budget : Nat)
    (l : List Message) :
    List.IsSuffix (trim_messages count sysTokens budget l) l := by
  unfold trim_messages
  cases hf : fitUserSuffix count sysTokens budget l with
  | some t => exact (fitUserSuffix_spec count sysTokens budget l t hf).1
  | none =>
    cases hl : lastUserSuffix l with
    | some t => simpa using (lastUserSuffix_spec l t hl).1
    | none => simp [List.nil_suffix]

theorem trim_messages_shape (count : Message → Nat) (sysTokens budget : Nat)
    (l : List Message) :
    trim_messages count sysTokens budget l = [] ∨
    ∃ u t2, trim_messages count sysTokens budget l = u :: t2 ∧ u.role = Role.user := by
  unfold trim_messages
  cases hf : fitUserSuffix count sysTokens budget l with
  | some t =>
    obtain ⟨_, u, t2, rfl, hu⟩ := fitUserSuffix_spec count sysTokens budget l t hf
    exact Or.inr ⟨u, t2, rfl, hu⟩
  | none =>
    cases hl : lastUserSuffix l with
    | some t =>
      obtain ⟨_, u, t2, rfl, hu⟩ := lastUserSuffix_spec l t hl
      exact Or.inr ⟨u, t2, rfl, hu⟩
    | none => exact Or.inl rfl

theorem trim_messages_eq_nil (count : Message → Nat) (sysTokens budget : Nat)
    (l : List Message) (h : trim_messages count sysTokens budget l = []) :
    ∀ m ∈ l, ¬ m.role = Role.user := by
  unfold trim_messages at h
  cases hf : fitUserSuffix count sysTokens budget l with
  | some t =>
    rw [hf] at h
    obtain ⟨_, u, t2, rfl, _⟩ := fitUserSuffix_spec count sysTokens budget l t hf
    simp at h
  | none =>
    rw [hf] at h
    cases hl : lastUserSuffix l with
    | some t =>
      rw [hl] at h
      obtain ⟨_, u, t2, rfl, _⟩ := lastUserSuffix_spec l t hl
      simp at h
    | none => exact lastUserSuffix_none l hl

theorem lastUser_mem_of_suffix {l t2 : List Message} {u m : Message}
    (hs : List.IsSuffix (u :: t2) l) (hu : u.role = Role.user)
    (hm : (l.filter (fun x => x.role == Role.user)).getLast? = some m) :
    m ∈ u :: t2 := by
  obtain ⟨pre, rfl⟩ := hs
  rw [List.filter_append, List.filter_cons, if_pos (by simp [hu]),
    List.getLast?_append_cons] at hm
  have hmem : m ∈ u :: t2.filter (fun x => x.role == Role.user) :=
    List.mem_of_mem_getLast? (by simp [hm])
  rcases List.mem_cons.mp hmem with rfl | hmf
  · exact List.mem_cons_self _ _
  · exact List.mem_cons_of_mem _ (List.mem_of_mem_filter hmf)

/-! Helper lemmas about one chat-input turn, stated as closed-form
equations over the three source branches of the handler. -/

theorem chatInputFull_unavailable (result : ModelResult) (st : AppState)
    (p : String) :
    chatInputFull false result st p = (st, some notFunctionalText) := rfl

theorem chatInputFull_forget (result : ModelResult) (st : AppState) (p : String)
    (hf : isForgetCommand p = true) :
    chatInputFull true result st p
      = ({ st with
            store := clearHistoryAt st.store st.sessionId
            messages := st.messages
              ++ [Message.mk Role.user p, Message.mk Role.assistant wipeText] },
         none) := by
  cases result <;> simp [chatInputFull, hf]

theorem chatInputFull_ok (st : AppState) (p response : String)
    (hf : ¬ isForgetCommand p = true) :
    chatInputFull true (ModelResult.ok response) st p
      = ({ st with
            store := fun s =>
              if s = st.sessionId then
                some ((st.store st.sessionId).getD []
                  ++ [Message.mk Role.user p, Message.mk Role.assistant response])
              else (get_session_history st.store st.sessionId).2 s
            modelCalls := st.modelCalls + 1
            messages :=
              if response.isEmpty then st.messages ++ [Message.mk Role.user p]
              else st.messages
                ++ [Message.mk Role.user p, Message.mk Role.assistant response] },
         none) := by
  simp [chatInputFull, hf, get_session_history_fst]

theorem chatInputFull_err (st : AppState) (p e : String)
    (hf : ¬ isForgetCommand p = true) :
    chatInputFull true (ModelResult.err e) st p
      = ({ st with
            store := (get_session_history st.store st.sessionId).2
            modelCalls := st.modelCalls + 1
            messages :=
              if e.isEmpty then st.messages ++ [Message.mk Role.user p]
              else st.messages
                ++ [Message.mk Role.user p, Message.mk Role.assistant e] },
         some invocationErrorText) := by
  simp [chatInputFull, hf]

theorem chatInputFull_forget_store (result : ModelResult) (st : AppState)
    (p : String) (hf : isForgetCommand p = true) :
    (chatInputFull true result st p).1.store
      = clearHistoryAt st.store st.sessionId := by
  rw [chatInputFull_forget result st p hf]

theorem chatInputFull_ok_store_at (st : AppState) (p response : String)
    (hf : ¬ isForgetCommand p = true) (s : Nat) :
    (chatInputFull true (ModelResult.ok response) st p).1.store s
      = if s = st.sessionId then
          some ((st.store st.sessionId).getD []
            ++ [Message.mk Role.user p, Message.mk Role.assistant response])
        else (get_session_history st.store st.sessionId).2 s := by
  rw [chatInputFull_ok st p response hf]

theorem chatInputFull_err_store (st : AppState) (p e : String)
    (hf : ¬ isForgetCommand p = true) :
    (chatInputFull true (ModelResult.err e) st p).1.store
      = (get_session_history st.store st.sessionId).2 := by
  rw [chatInputFull_err st p e hf]

theorem chatInputFull_ids (avail : Bool) (result : ModelResult) (st : AppState)
    (p : String) :
    (chatInputFull avail result st p).1.sessionId = st.sessionId
    ∧ (chatInputFull avail result st p).1.nextId = st.nextId
    ∧ (chatInputFull avail result st p).1.issued = st.issued
    ∧ (chatInputFull avail result st p).1.language = st.language := by
  unfold chatInputFull
  cases avail <;> cases result <;>
    by_cases h : isForgetCommand p = true <;> simp [h]

theorem chatInputFull_store_other (avail : Bool) (result : ModelResult)
    (st : AppState) (p : String) (s : Nat) (h : ¬ s = st.sessionId) :
    (chatInputFull avail result st p).1.store s = st.store s := by
  cases avail with
  | false => rfl
  | true =>
    by_cases hf : isForgetCommand p = true
    · rw [chatInputFull_forget_store result st p hf]
      exact clearHistoryAt_other st.store st.sessionId s h
    · cases result with
      | ok response =>
        rw [chatInputFull_ok_store_at st p response hf s, if_neg h]
        exact get_session_history_snd_other st.store st.sessionId s h
      | err e =>
        rw [chatInputFull_err_store st p e hf]
        exact get_session_history_snd_other st.store st.sessionId s h

theorem step_submit (avail : Bool) (result : ModelResult) (st : AppState)
    (p : String) :
    step avail st (Event.submit result p) = (chatInputFull avail result st p).1 :=
  rfl

/-! Invariants preserved by every re-run of the presentation loop. -/

/-- All session identifiers issued so far, the current one included, lie
below the fresh-identifier counter. -/
def IdsBounded (st : AppState) : Prop :=
  st.sessionId < st.nextId ∧ ∀ i ∈ st.issued, i < st.nextId

/-- The entry of a retired session identifier is empty and can never be
written again: the identifier is not current and the counter is past it. -/
def FrozenEmpty (sid0 : Nat) (st : AppState) : Prop :=
  st.store sid0 = some [] ∧ ¬ sid0 = st.sessionId ∧ sid0 < st.nextId

theorem step_frozen (avail : Bool) (sid0 : Nat) (st : AppState) (e : Event)
    (h : FrozenEmpty sid0 st) : FrozenEmpty sid0 (step avail st e) := by
  obtain ⟨hst, hne, hlt⟩ := h
  cases e with
  | selectLang lang =>
    by_cases hl : lang = st.language
    · simpa [step, selectLanguage, hl] using ⟨hst, hne, hlt⟩
    · refine ⟨?_, ?_, ?_⟩
      · simpa [step, selectLanguage, hl, init_chat_session] using
          (clearHistoryAt_other st.store st.sessionId sid0 hne).trans hst
      · simp only [step, selectLanguage, if_neg hl, init_chat_session]
        exact Nat.ne_of_lt hlt
      · simp only [step, selectLanguage, if_neg hl, init_chat_session]
        exact Nat.lt_succ_of_lt hlt
  | newChatClick =>
    refine ⟨?_, ?_, ?_⟩
    · simpa [step, startNewChat, init_chat_session] using
        (clearHistoryAt_other st.store st.sessionId sid0 hne).trans hst
    · simp only [step, startNewChat, init_chat_session]
      exact Nat.ne_of_lt hlt
    · simp only [step, startNewChat, init_chat_session]
      exact Nat.lt_succ_of_lt hlt
  | submit result p =>
    obtain ⟨hid, hnx, _, _⟩ := chatInputFull_ids avail result st p
    refine ⟨?_, ?_, ?_⟩
    · rw [step_submit]
      exact (chatInputFull_store_other avail result st p sid0 hne).trans hst
    · rw [step_submit, hid]; exact hne
    · rw [step_submit, hnx]; exact hlt

theorem run_frozen (avail : Bool) (sid0 : Nat) :
    ∀ (evs : List Event) (st : AppState), FrozenEmpty sid0 st →
      FrozenEmpty sid0 (run avail st evs)
  | [], _, h => h
  | e :: evs, st, h =>
    run_frozen avail sid0 evs (step avail st e) (step_frozen avail sid0 st e h)

/-- No store entry contains a system-role message. -/
def CleanStore (store : Store) : Prop :=
  ∀ sid msgs, store sid = some msgs → ∀ m ∈ msgs, ¬ m.role = Role.system

theorem get_session_history_snd_cases (store : Store) (sid s : Nat)
    (msgs : List Message)
    (h : (get_session_history store sid).2 s = some msgs) :
    store s = some msgs ∨ msgs = [] := by
  unfold get_session_history at h
  cases hst : store sid with
  | some h0 =>
    rw [hst] at h
    exact Or.inl h
  | none =>
    rw [hst] at h
    by_cases hss : s = sid
    · subst hss
      have h2 : (if s = s then some ([] : List Message) else store s) = some msgs := h
      rw [if_pos rfl] at h2
      injection h2 with h2
      exact Or.inr h2.symm
    · have h2 : (if s = sid then some ([] : List Message) else store s) = some msgs := h
      rw [if_neg hss] at h2
      exact Or.inl h2

theorem get_session_history_snd_clean (store : Store) (sid : Nat)
    (h : CleanStore store) : CleanStore (get_session_history store sid).2 := by
  intro s msgs hs m hm
  rcases get_session_history_snd_cases store sid s msgs hs with h1 | rfl
  · exact h s msgs h1 m hm
  · simp at hm

theorem clearHistoryAt_clean (store : Store) (sid : Nat) (h : CleanStore store) :
    CleanStore (clearHistoryAt store sid) := by
  intro s msgs hs m hm
  by_cases hss : s = sid
  · subst hss
    rw [clearHistoryAt_same store s] at hs
    injection hs with hs
    subst hs
    simp at hm
  · rw [clearHistoryAt_other store sid s hss] at hs
    exact h s msgs hs m hm

theorem step_clean (avail : Bool) (st : AppState) (e : Event)
    (h : CleanStore st.store) : CleanStore (step avail st e).store := by
  cases e with
  | selectLang lang =>
    by_cases hl : lang = st.language
    · simpa [step, selectLanguage, hl] using h
    · simp only [step, selectLanguage, if_neg hl, init_chat_session]
      exact clearHistoryAt_clean st.store st.sessionId h
  | newChatClick =>
    simp only [step, startNewChat, init_chat_session]
    exact clearHistoryAt_clean st.store st.sessionId h
  | submit result p =>
    rw [step_submit]
    cases avail with
    | false => exact h
    | true =>
      by_cases hf : isForgetCommand p = true
      · rw [chatInputFull_forget_store result st p hf]
        exact clearHistoryAt_clean st.store st.sessionId h
      · cases result with
        | ok response =>
          intro s msgs hs m hm
          rw [chatInputFull_ok_store_at st p response hf s] at hs
          by_cases hss : s = st.sessionId
          · subst hss
            rw [if_pos rfl] at hs
            injection hs with hs
            subst hs
            rcases List.mem_append.mp hm with hm1 | hm2
            · cases hst : st.store st.sessionId with
              | some h0 => rw [hst] at hm1; exact h st.sessionId h0 hst m hm1
              | none => rw [hst] at hm1; simp at hm1
            · rcases List.mem_cons.mp hm2 with rfl | hm3
              · simp
              · rcases List.mem_cons.mp hm3 with rfl | hm4
                · simp
                · simp at hm4
          · rw [if_neg hss,
              get_session_history_snd_other st.store st.sessionId s hss] at hs
            exact h s msgs hs m hm
        | err e =>
          rw [chatInputFull_err_store st p e hf]
          exact get_session_history_snd_clean st.store st.sessionId h

theorem run_clean (avail : Bool) :
    ∀ (evs : List Event) (st : AppState), CleanStore st.store →
      CleanStore (run avail st evs).store
  | [], _, h => h
  | e :: evs, st, h =>
    run_clean avail evs (step avail st e) (step_clean avail st e h)

theorem initialState_clean : CleanStore initialState.store := by
  intro sid msgs hs
  simp [initialState, init_chat_session] at hs

/-! The claims. -/

/-- C1: a completed (non-command, non-failing) chat turn appends exactly
one user-role message followed by exactly one assistant-role message, in
that order, to the store entry of the current session identifier, and
leaves every other store entry unchanged. -/
theorem completed_turn_appends_user_then_assistant (st : AppState)
    (p response : String) (h : isForgetCommand p = false) :
    (chatInputFull true (ModelResult.ok response) st p).1.store st.sessionId
      = some ((st.store st.sessionId).getD []
          ++ [Message.mk Role.user p, Message.mk Role.assistant response])
    ∧ ∀ s, ¬ s = st.sessionId →
        (chatInputFull true (ModelResult.ok response) st p).1.store s
          = st.store s := by
  have hf : ¬ isForgetCommand p = true := by simp [h]
  constructor
  · rw [chatInputFull_ok_store_at st p response hf st.sessionId, if_pos rfl]
  · intro s hs
    exact chatInputFull_store_other true (ModelResult.ok response) st p s hs

/-- Witness for C1 at the initial state with input "Hi". -/
theorem completed_turn_appends_user_then_assistant_witness :
    (chatInputFull true (ModelResult.ok "Hello!") initialState "Hi").1.store
        initialState.sessionId
      = some [Message.mk Role.user "Hi", Message.mk Role.assistant "Hello!"]
    ∧ (chatInputFull true (ModelResult.ok "Hello!") initialState "Hi").1.store 7
      = initialState.store 7 := by
  have h := completed_turn_appends_user_then_assistant initialState "Hi" "Hello!"
    (by decide)
  refine ⟨?_, h.2 7 (by decide)⟩
  rw [h.1]
  rfl

/-- C2 counterexample: a non-empty input with no user-role message (a
single assistant message) is trimmed to the empty sequence, because the
trimmer output must start on a user-role message; the claim fails for
such inputs. -/
theorem trimmer_nonempty_cex :
    [Message.mk Role.assistant "x"] ≠ ([] : List Message)
    ∧ trim_messages (fun _ => 1) 0 200 [Message.mk Role.assistant "x"] = [] :=
  ⟨by decide, rfl⟩

/-- C2 amended: for every input containing at least one user-role message
the trimmer returns a non-empty output; the output is a suffix of the
input (messages are kept whole, no partial truncation), and the most
recent user message is always retained in full, even when that minimal
set exceeds the token budget. -/
theorem trimmer_nonempty_amended (count : Message → Nat) (sysTokens budget : Nat)
    (msgs : List Message) (hu : ∃ m ∈ msgs, m.role = Role.user) :
    trim_messages count sysTokens budget msgs ≠ []
    ∧ List.IsSuffix (trim_messages count sysTokens budget msgs) msgs
    ∧ ∀ m, (msgs.filter (fun x => x.role == Role.user)).getLast? = some m →
        m ∈ trim_messages count sysTokens budget msgs := by
  obtain ⟨m0, hm0, hr0⟩ := hu
  have hne : trim_messages count sysTokens budget msgs ≠ [] := by
    intro h
    exact trim_messages_eq_nil count sysTokens budget msgs h m0 hm0 hr0
  refine ⟨hne, trim_messages_suffix count sysTokens budget msgs, ?_⟩
  intro m hm
  rcases trim_messages_shape count sysTokens budget msgs with h | ⟨u, t2, h, hu2⟩
  · exact absurd h hne
  · have hsuf : List.IsSuffix (u :: t2) msgs := by
      rw [← h]
      exact trim_messages_suffix count sysTokens budget msgs
    rw [h]
    exact lastUser_mem_of_suffix hsuf hu2 hm

/-- Witness for the amended C2 on a two-message history over budget. -/
theorem trimmer_nonempty_amended_witness :
    trim_messages (fun _ => 1) 0 200
        [Message.mk Role.assistant "a", Message.mk Role.user "u"] ≠ []
    ∧ Message.mk Role.user "u" ∈ trim_messages (fun _ => 1) 0 200
        [Message.mk Role.assistant "a", Message.mk Role.user "u"] := by
  have h := trimmer_nonempty_amended (fun _ => 1) 0 200
    [Message.mk Role.assistant "a", Message.mk Role.user "u"]
    ⟨Message.mk Role.user "u", by decide, rfl⟩
  exact ⟨h.1, h.2.2 (Message.mk Role.user "u") (by decide)⟩

/-- C3 counterexample: submitting "forget everything" keeps the current
session identifier (no new identifier is allocated) and the display list
is not re-seeded with the welcome message, refuting the full-reset claim
at the initial state. -/
theorem forget_full_reset_cex :
    ¬ ((chatInputFull true (ModelResult.ok "r") initialState
          "forget everything").1.sessionId ≠ initialState.sessionId
       ∧ (chatInputFull true (ModelResult.ok "r") initialState
          "forget everything").1.messages
         = [Message.mk Role.assistant (welcomeText "English")]) := by
  decide

/-- C3 amended: submitting "forget everything" clears the store entry of
the current session identifier but, unlike reset, allocates no new
identifier (session id, counter and issued list are unchanged) and does
not re-seed the welcome message: the wipe confirmation is appended after
the echoed user message; the session remains usable. -/
theorem forget_clears_without_new_session (st : AppState)
    (result : ModelResult) (p : String) (hf : isForgetCommand p = true) :
    (chatInputFull true result st p).1.store st.sessionId = some []
    ∧ (chatInputFull true result st p).1.sessionId = st.sessionId
    ∧ (chatInputFull true result st p).1.nextId = st.nextId
    ∧ (chatInputFull true result st p).1.issued = st.issued
    ∧ (chatInputFull true result st p).1.messages
        = st.messages
          ++ [Message.mk Role.user p, Message.mk Role.assistant wipeText] := by
  rw [chatInputFull_forget result st p hf]
  exact ⟨clearHistoryAt_same st.store st.sessionId, rfl, rfl, rfl, rfl⟩

/-- Witness for the amended C3 at the initial state. -/
theorem forget_clears_without_new_session_witness :
    (chatInputFull true (ModelResult.ok "r") initialState
        "Forget Everything").1.store initialState.sessionId = some []
    ∧ (chatInputFull true (ModelResult.ok "r") initialState
        "Forget Everything").1.sessionId = initialState.sessionId := by
  have h := forget_clears_without_new_session initialState (ModelResult.ok "r")
    "Forget Everything" (by decide)
  exact ⟨h.1, h.2.1⟩

/-- C4 counterexample: with the chain unavailable (missing API key) the
guard stops the turn before the command handler, so submitting the
reserved phrase produces no wipe-confirmation assistant message, refuting
the unconditional claim. -/
theorem forget_display_message_cex :
    ¬ ((chatInputFull false (ModelResult.ok "x") initialState
          "FORGET EVERYTHING ").1.modelCalls = initialState.modelCalls
       ∧ wipeConfirmCount ((chatInputFull false (ModelResult.ok "x") initialState
            "FORGET EVERYTHING ").1.messages)
         = wipeConfirmCount initialState.messages + 1) := by
  decide

/-- C4 amended: an input whose lowercased, stripped form is
"forget everything" never invokes the model; when the chain is available
exactly one new assistant-role wipe-confirmation display message is
produced, and when it is unavailable the state is unchanged and the
"not functional" error is shown instead. -/
theorem forget_short_circuits_model (st : AppState) (result : ModelResult)
    (p : String) (hf : isForgetCommand p = true) :
    ((chatInputFull true result st p).1.modelCalls = st.modelCalls
      ∧ wipeConfirmCount ((chatInputFull true result st p).1.messages)
          = wipeConfirmCount st.messages + 1)
    ∧ ((chatInputFull false result st p).1.modelCalls = st.modelCalls
      ∧ (chatInputFull false result st p).1.messages = st.messages
      ∧ (chatInputFull false result st p).2 = some notFunctionalText) := by
  refine ⟨⟨?_, ?_⟩, rfl, rfl, rfl⟩
  · rw [chatInputFull_forget result st p hf]
  · rw [chatInputFull_forget result st p hf]
    simp [wipeConfirmCount, List.countP_append, List.countP_cons]

/-- Witness for the amended C4 on a mixed-case padded command. -/
theorem forget_short_circuits_model_witness :
    (chatInputFull true (ModelResult.ok "x") initialState
        " forget EVERYTHING ").1.modelCalls = initialState.modelCalls
    ∧ wipeConfirmCount ((chatInputFull true (ModelResult.ok "x") initialState
        " forget EVERYTHING ").1.messages)
      = wipeConfirmCount initialState.messages + 1 :=
  (forget_short_circuits_model initialState (ModelResult.ok "x")
    " forget EVERYTHING " (by decide)).1

/-- C5: a language-change event (the new selection differs from the
previous one) clears the store entry of the old session identifier,
issues a fresh identifier differing from every identifier previously
issued in the process run, and the old entry stays empty under any
subsequent sequence of events. -/
theorem language_change_wipes_and_fresh_id (avail : Bool) (st : AppState)
    (newLang : String) (hb : IdsBounded st) (hl : ¬ newLang = st.language) :
    (selectLanguage st newLang).store st.sessionId = some []
    ∧ (selectLanguage st newLang).sessionId ∉ st.issued
    ∧ ∀ evs, (run avail (selectLanguage st newLang) evs).store st.sessionId
        = some [] := by
  have hsel : selectLanguage st newLang
      = init_chat_session
          { st with
              language := newLang
              store := clearHistoryAt st.store st.sessionId } := by
    rw [selectLanguage, if_neg hl]
  have hstore : (selectLanguage st newLang).store st.sessionId = some [] := by
    rw [hsel]
    exact clearHistoryAt_same st.store st.sessionId
  have hsid : (selectLanguage st newLang).sessionId = st.nextId := by
    rw [hsel]
    rfl
  have hnext : (selectLanguage st newLang).nextId = st.nextId + 1 := by
    rw [hsel]
    rfl
  refine ⟨hstore, ?_, ?_⟩
  · rw [hsid]
    intro hmem
    exact absurd (hb.2 st.nextId hmem) (Nat.lt_irrefl st.nextId)
  · intro evs
    have hfz : FrozenEmpty st.sessionId (selectLanguage st newLang) := by
      refine ⟨hstore, ?_, ?_⟩
      · rw [hsid]
        exact Nat.ne_of_lt hb.1
      · rw [hnext]
        exact Nat.lt_succ_of_lt hb.1
    exact (run_frozen avail st.sessionId evs (selectLanguage st newLang) hfz).1

/-- Witness for C5: switching the initial state to Spanish, then one more
chat turn; the old entry is empty throughout and the new id is fresh. -/
theorem language_change_wipes_and_fresh_id_witness :
    (selectLanguage initialState "Spanish").store initialState.sessionId
      = some []
    ∧ (selectLanguage initialState "Spanish").sessionId ∉ initialState.issued
    ∧ (run true (selectLanguage initialState "Spanish")
        [Event.submit (ModelResult.ok "hola") "Hi"]).store
          initialState.sessionId = some [] := by
  have h := language_change_wipes_and_fresh_id true initialState "Spanish"
    ⟨by decide, by decide⟩ (by decide)
  exact ⟨h.1, h.2.1, h.2.2 [Event.submit (ModelResult.ok "hola") "Hi"]⟩

/-- C6: for every input message sequence and budget, the trimmer output is
a suffix of the input whose oldest retained non-system message, when one
exists, has role user, never role assistant. -/
theorem trimmer_starts_on_user (count : Message → Nat) (sysTokens budget : Nat)
    (msgs : List Message) :
    List.IsSuffix (trim_messages count sysTokens budget msgs) msgs
    ∧ ((trim_messages count sysTokens budget msgs).filter
         (fun m => !(m.role == Role.system))).head?.all
        (fun m => m.role == Role.user) = true := by
  refine ⟨trim_messages_suffix count sysTokens budget msgs, ?_⟩
  rcases trim_messages_shape count sysTokens budget msgs with h | ⟨u, t2, h, hu⟩
  · rw [h]
    rfl
  · rw [h, List.filter_cons, if_pos (by simp [hu])]
    simp [hu]

/-- C7: in every reachable state no persisted store entry contains a
system-role message; the system instruction is synthesized at request
time from the current language selection and only prepended to the
request, never stored. -/
theorem system_message_never_stored :
    (∀ (avail : Bool) (evs : List Event) (sid : Nat) (msgs : List Message),
        (run avail initialState evs).store sid = some msgs →
        msgs.all (fun m => !(m.role == Role.system)) = true)
    ∧ ∀ (lang : String) (hist : List Message),
        buildRequest lang hist
          = Message.mk Role.system (systemInstruction lang) :: hist := by
  constructor
  · intro avail evs sid msgs hs
    have hc := run_clean avail evs initialState initialState_clean sid msgs hs
    rw [List.all_eq_true]
    intro m hm
    have hns := hc m hm
    simp [hns]
  · intro lang hist
    rfl

/-- Witness for C7 after one completed chat turn from the initial state. -/
theorem system_message_never_stored_witness :
    ([Message.mk Role.user "Hi", Message.mk Role.assistant "Hello!"].all
        (fun m => !(m.role == Role.system))) = true :=
  system_message_never_stored.1 true
    [Event.submit (ModelResult.ok "Hello!") "Hi"] 0
    [Message.mk Role.user "Hi", Message.mk Role.assistant "Hello!"] (by decide)

/-- C8: for every store, every prior sequence of append operations and
every identifier, clearing that identifier and then getting it returns
the empty sequence, and the key remains present in the store. -/
theorem clear_then_get_returns_empty (store : Store)
    (ops : List (Nat × Message)) (sid : Nat) :
    (get_session_history
        (clearHistoryAt
          (ops.foldl (fun acc op => sessionAppend acc op.1 op.2) store) sid)
        sid).1 = []
    ∧ clearHistoryAt
        (ops.foldl (fun acc op => sessionAppend acc op.1 op.2) store) sid sid
      = some [] := by
  constructor
  · rw [get_session_history_fst, clearHistoryAt_same]
    rfl
  · exact clearHistoryAt_same _ _

/-- C9: with the API key absent the startup surfaces a visible non-fatal
error and leaves the model unavailable; every subsequently submitted
input leaves the state unchanged, shows the explicit "not functional"
message, and never invokes the model. -/
theorem missing_key_nonfatal_disables_inference :
    (startup none).2 = some keyMissingText
    ∧ (startup none).1 = false
    ∧ ∀ (st : AppState) (result : ModelResult) (p : String),
        (chatInputFull (startup none).1 result st p).1 = st
        ∧ (chatInputFull (startup none).1 result st p).2
            = some notFunctionalText
        ∧ (chatInputFull (startup none).1 result st p).1.modelCalls
            = st.modelCalls :=
  ⟨rfl, rfl, fun _ _ _ => ⟨rfl, rfl, rfl⟩⟩

/-- C10: a re-run of the presentation loop whose language selection equals
the previous one and which carries no new user input leaves the entire
application state (session identifier, store contents, display messages)
unchanged. -/
theorem same_selection_rerun_is_noop (avail : Bool) (st : AppState) :
    step avail st (Event.selectLang st.language) = st := by
  simp [step, selectLanguage]

end Chatbot
